import Mathlib

/-!
# DumpsterMap data-cleaning pipeline — verification of the spec's claims

Shallow embedding of the core of `scripts/clean_data.py` and
`scripts/validate_and_clean.py`: the normalizers, the rule-based classifier
(`should_remove`), the deduplicator, the quality scorer and the pure part of
the website validator.  Python strings are `String` (lists of characters),
Python dicts of scalar fields are a `Record` structure whose absent string
fields are `""` and whose absent numeric fields are `0`, numbers are `ℚ`/`Int`
(the scorer's arithmetic is exact decimal arithmetic, modelled in `ℚ`), and
the regular expressions of the source are implemented directly
(`\D` filter, `\b..\b` word-boundary substitution, `\s+` collapse,
`^https?://(www\.)?` scheme stripping).
-/

namespace DumpsterMap

/-! ## Python string primitives -/

/-- Python regex word character (ASCII `\w`): letter, digit or underscore. -/
def isWordChar (c : Char) : Bool := c.isAlphanum || c == '_'

/-- Python regex whitespace (ASCII `\s`): space, tab, newline, carriage
return, vertical tab, form feed. -/
def pyIsSpace (c : Char) : Bool :=
  c == ' ' || c == '\t' || c == '\n' || c == '\r' || c.val == 11 || c.val == 12

/-- Python `str.lower()` (ASCII letters; the data is ASCII). -/
def lowerS (s : String) : String := ⟨s.toList.map Char.toLower⟩

/-- Python `str.strip()`: drop leading and trailing whitespace. -/
def trimL (s : List Char) : List Char :=
  ((s.dropWhile pyIsSpace).reverse.dropWhile pyIsSpace).reverse

def trimS (s : String) : String := ⟨trimL s.toList⟩

/-- Python `sub in hay` on strings: contiguous substring test. -/
def isInfixB (sub : List Char) : List Char → Bool
  | [] => sub.isEmpty
  | c :: t => sub.isPrefixOf (c :: t) || isInfixB sub t

/-- Python `sub in hay` for strings. -/
def pyIn (sub hay : String) : Bool := isInfixB sub.toList hay.toList

/-- Does a word boundary follow the match of `pat` at the head of `s`?
(`\b` after the pattern: end of string or a non-word character.) -/
def boundaryAfter (pat s : List Char) : Bool :=
  match s.drop pat.length with
  | [] => true
  | d :: _ => !isWordChar d

/-- `re.sub(r'\b<pat>\b', repl, s)` for a non-empty pattern made of word
characters: scan left to right, replace each non-overlapping occurrence of
`pat` that is preceded and followed by a word boundary, never rescanning a
replacement.  `prev` is the character just before the current position in
the *input* (none at the start of the string).  The `fuel` argument (set to
the string's length, which bounds the number of scan steps) only makes the
recursion structural; it is never exhausted. -/
def expandWord (pat repl : List Char) : Nat → Option Char → List Char → List Char
  | 0, _, s => s
  | _ + 1, _, [] => []
  | fuel + 1, prev, c :: t =>
    if (match prev with | none => true | some p => !isWordChar p)
        && pat.isPrefixOf (c :: t) && boundaryAfter pat (c :: t) && !pat.isEmpty then
      repl ++ expandWord pat repl fuel (some (pat.getLastD c)) ((c :: t).drop pat.length)
    else
      c :: expandWord pat repl fuel (some c) t

/-- `re.sub(r'\b<pat>\b', repl, s)` at the `String` level. -/
def pySubWord (pat repl s : String) : String :=
  ⟨expandWord pat.toList repl.toList s.toList.length none s.toList⟩

/-- `re.sub(r'\s+', ' ', s)`: collapse every whitespace run to one space. -/
def collapseWS : List Char → List Char
  | [] => []
  | [c] => if pyIsSpace c then [' '] else [c]
  | c :: d :: t =>
    if pyIsSpace c && pyIsSpace d then collapseWS (d :: t)
    else (if pyIsSpace c then ' ' else c) :: collapseWS (d :: t)

def collapseS (s : String) : String := ⟨collapseWS s.toList⟩

/-! ## Normalizer (`normalize_phone`, `normalize_address`, domain extraction) -/

/-- `clean_data.normalize_phone` / `validate_and_clean.normalize_phone`:
strip non-digits (`re.sub(r'\D', '', phone)`); an 11-digit result starting
with the US country code `1` loses that leading digit. -/
def normalize_phone (phone : String) : String :=
  if phone = "" then ""
  else
    let digits := phone.toList.filter Char.isDigit
    let digits :=
      if digits.length == 11 && digits.headD '0' == '1' then digits.tail else digits
    ⟨digits⟩

/-- `clean_data.normalize_address`: lower-case, strip, expand the five
street-type abbreviations at word boundaries, collapse whitespace. -/
def normalize_address (address : String) : String :=
  if address = "" then ""
  else
    let addr := trimS (lowerS address)
    let addr := pySubWord "st" "street" addr
    let addr := pySubWord "rd" "road" addr
    let addr := pySubWord "ave" "avenue" addr
    let addr := pySubWord "blvd" "boulevard" addr
    let addr := pySubWord "dr" "drive" addr
    collapseS addr

/-- `validate_and_clean.normalize_address`: same, but it only expands
`st`, `rd` and `ave` — it has no `blvd` or `dr` substitution. -/
def normalize_address_v (address : String) : String :=
  if address = "" then ""
  else
    let addr := trimS (lowerS address)
    let addr := pySubWord "st" "street" addr
    let addr := pySubWord "rd" "road" addr
    let addr := pySubWord "ave" "avenue" addr
    collapseS addr

/-- The spec's words for `normalizeAddress` (§4.1): "lower-cases, trims,
expands a fixed set of street-type abbreviations (st→street, rd→road,
ave→avenue, blvd→boulevard, dr→drive) using word-boundary matching only,
collapses repeated whitespace to single spaces". -/
def normalizeAddressSpec (address : String) : String :=
  collapseS (pySubWord "dr" "drive" (pySubWord "blvd" "boulevard"
    (pySubWord "ave" "avenue" (pySubWord "rd" "road"
      (pySubWord "st" "street" (trimS (lowerS address)))))))

/-- The same spec recipe restricted to the three abbreviations that
`validate_and_clean.normalize_address` actually expands. -/
def normalizeAddressSpec3 (address : String) : String :=
  collapseS (pySubWord "ave" "avenue" (pySubWord "rd" "road"
    (pySubWord "st" "street" (trimS (lowerS address)))))

/-- `dropPre pre s`: `some` of the rest of `s` when `pre` is a prefix. -/
def dropPre (pre s : List Char) : Option (List Char) :=
  if pre.isPrefixOf s then some (s.drop pre.length) else none

/-- Domain extraction of the deduplicator:
`re.sub(r'^https?://(www\.)?', '', website.lower()).split('/')[0]`.
The `www.` part is stripped only when a scheme was present, exactly as the
anchored regex behaves. -/
def extract_domain (website : String) : String :=
  let w := website.toList.map Char.toLower
  let afterScheme :=
    match dropPre "https://".toList w with
    | some rest => some rest
    | none => dropPre "http://".toList w
  let stripped :=
    match afterScheme with
    | some rest =>
      match dropPre "www.".toList rest with
      | some r => r
      | none => rest
    | none => w
  ⟨stripped.takeWhile (fun c => c != '/')⟩

/-! ## Data model -/

/-- Symbolic status of a website check: an HTTP status code (an integer in
the Python dict) or one of the string tags `"no_url"`, `"timeout"`,
`"error:<class>"`. -/
inductive WStatus where
  | code (n : Nat)
  | tag (s : String)
deriving DecidableEq, Repr

/-- The `_website_check` verdict dict built by `check_website`. -/
structure WCheck where
  url : String
  status : WStatus
  reachable : Bool
  finalUrl : Option String
deriving DecidableEq, Repr

/-- One business-listing record.  A Python dict of scalar fields: an absent
or `None` string field is `""`, absent numerics are `0`, so `record.get(f)`
truthiness is `≠ ""` (strings), `≠ 0` (numbers) or the `Bool` itself.
`quality_score` and `websiteCheck` are the `_quality_score` /
`_website_check` annotations the pipeline adds. -/
structure Record where
  name : String := ""
  phone : String := ""
  address : String := ""
  website : String := ""
  category : String := ""
  business_status : String := ""
  place_id : String := ""
  verified : Bool := false
  reviews : Int := 0
  rating : Rat := 0
  photos_count : Int := 0
  quality_score : Rat := 0
  websiteCheck : Option WCheck := none
deriving DecidableEq, Repr

/-! ## Classifier (`should_remove`) -/

def BIG_BOX_RETAILERS : List String :=
  ["home depot", "lowe's", "lowes", "menards", "ace hardware",
   "true value", "harbor freight", "northern tool"]

def NATIONAL_WASTE_COMPANIES : List String :=
  ["waste management", "republic services", "waste connections",
   "advanced disposal", "casella", "gfl environmental",
   "waste industries", "rumpke", "waste pro"]

def JUNK_REMOVAL_ONLY_KEYWORDS : List String :=
  ["junk removal", "junk hauling", "1-800-got-junk",
   "college hunks", "junkluggers", "junk king"]

def NON_DUMPSTER_KEYWORDS : List String :=
  ["portable toilet", "porta potty", "porta-potty", "portaloo",
   "storage unit", "self storage", "mini storage",
   "moving company", "movers", "u-haul", "penske",
   "septic", "grease trap", "portable restroom"]

/-- `clean_data.should_remove`: the ordered decision list.  Each `for`
loop returning on the first matching keyword is `List.find?`. -/
def should_remove (r : Record) : Bool × String :=
  let name := lowerS r.name
  let category := lowerS r.category
  let status := r.business_status
  if r.name = "" then (true, "missing_name")
  else if r.phone = "" ∧ r.website = "" then (true, "missing_contact")
  else if r.address = "" then (true, "missing_address")
  else if status = "CLOSED_PERMANENTLY" then (true, "closed_permanently")
  else
    match BIG_BOX_RETAILERS.find? (fun bb => pyIn bb name) with
    | some bb => (true, "big_box_retailer:" ++ bb)
    | none =>
      match NATIONAL_WASTE_COMPANIES.find? (fun nwc => pyIn nwc name) with
      | some nwc => (true, "national_chain:" ++ nwc)
      | none =>
        match (if pyIn "junk removal" category ∧ ¬ pyIn "dumpster" category then
                 JUNK_REMOVAL_ONLY_KEYWORDS.find? (fun kw => pyIn kw name)
               else none) with
        | some kw => (true, "junk_removal_only:" ++ kw)
        | none =>
          match NON_DUMPSTER_KEYWORDS.find? (fun kw => pyIn kw name ∨ pyIn kw category) with
          | some kw => (true, "non_dumpster:" ++ kw)
          | none => (false, "keep")

/-- `validate_and_clean.should_remove`: the same decision list, but the
big-box tag is `big_box:` and the junk-removal tag is `junk_only:`. -/
def should_remove_v (r : Record) : Bool × String :=
  let name := lowerS r.name
  let category := lowerS r.category
  let status := r.business_status
  if r.name = "" then (true, "missing_name")
  else if r.phone = "" ∧ r.website = "" then (true, "missing_contact")
  else if r.address = "" then (true, "missing_address")
  else if status = "CLOSED_PERMANENTLY" then (true, "closed_permanently")
  else
    match BIG_BOX_RETAILERS.find? (fun bb => pyIn bb name) with
    | some bb => (true, "big_box:" ++ bb)
    | none =>
      match NATIONAL_WASTE_COMPANIES.find? (fun nwc => pyIn nwc name) with
      | some nwc => (true, "national_chain:" ++ nwc)
      | none =>
        match (if pyIn "junk removal" category ∧ ¬ pyIn "dumpster" category then
                 JUNK_REMOVAL_ONLY_KEYWORDS.find? (fun kw => pyIn kw name)
               else none) with
        | some kw => (true, "junk_only:" ++ kw)
        | none =>
          match NON_DUMPSTER_KEYWORDS.find? (fun kw => pyIn kw name ∨ pyIn kw category) with
          | some kw => (true, "non_dumpster:" ++ kw)
          | none => (false, "keep")

/-- The enumerated `RejectionReason` set of the spec (§3): membership of a
reason string in `{missing_name, missing_contact, missing_address,
closed_permanently, big_box_retailer:<match>, national_chain:<match>,
junk_removal_only:<match>, non_dumpster:<match>, keep}` with `<match>`
drawn from the corresponding configured keyword list. -/
def reasonOk (s : String) : Bool :=
  s == "keep" || s == "missing_name" || s == "missing_contact" ||
  s == "missing_address" || s == "closed_permanently" ||
  BIG_BOX_RETAILERS.any (fun bb => s == "big_box_retailer:" ++ bb) ||
  NATIONAL_WASTE_COMPANIES.any (fun nwc => s == "national_chain:" ++ nwc) ||
  JUNK_REMOVAL_ONLY_KEYWORDS.any (fun kw => s == "junk_removal_only:" ++ kw) ||
  NON_DUMPSTER_KEYWORDS.any (fun kw => s == "non_dumpster:" ++ kw)

/-- The reason set as `validate_and_clean.should_remove` actually spells
it: `big_box:<match>` and `junk_only:<match>` instead of
`big_box_retailer:<match>` and `junk_removal_only:<match>`. -/
def reasonOkV (s : String) : Bool :=
  s == "keep" || s == "missing_name" || s == "missing_contact" ||
  s == "missing_address" || s == "closed_permanently" ||
  BIG_BOX_RETAILERS.any (fun bb => s == "big_box:" ++ bb) ||
  NATIONAL_WASTE_COMPANIES.any (fun nwc => s == "national_chain:" ++ nwc) ||
  JUNK_REMOVAL_ONLY_KEYWORDS.any (fun kw => s == "junk_only:" ++ kw) ||
  NON_DUMPSTER_KEYWORDS.any (fun kw => s == "non_dumpster:" ++ kw)

/-! ## Deduplicator -/

/-- The three running tables `seen_phones`, `seen_addresses`,
`seen_websites`: dicts from a key to the registering record's `place_id`
(the value is provenance only, never read back). -/
structure DedupState where
  phones : List (String × String)
  addresses : List (String × String)
  websites : List (String × String)
deriving DecidableEq, Repr

def emptyDedupState : DedupState := ⟨[], [], []⟩

/-- `key in table` of the Python dict. -/
def keyMem (k : String) (tbl : List (String × String)) : Bool :=
  tbl.any (fun p => p.1 == k)

/-- The platform domains excluded from website dedup:
`['facebook.com', 'yelp.com', 'google.com']`. -/
def EXCLUDED_DOMAINS : List String := ["facebook.com", "yelp.com", "google.com"]

/-- The `# Check phone` block of `deduplicate`: a 10-digit normalized phone
already seen marks the record duplicate, otherwise a valid phone is
registered. -/
def phoneCheck (r : Record) (s : DedupState) : DedupState × Bool :=
  let phone := normalize_phone r.phone
  if phone ≠ "" ∧ phone.length = 10 then
    if keyMem phone s.phones then (s, true)
    else ({ s with phones := (phone, r.place_id) :: s.phones }, false)
  else (s, false)

/-- The `# Check address` block, guarded by `if not is_dupe`. -/
def addrCheck (na : String → String) (r : Record) (sd : DedupState × Bool) :
    DedupState × Bool :=
  if sd.2 then sd
  else
    let addr := na r.address
    if addr ≠ "" ∧ 15 < addr.length then
      if keyMem addr sd.1.addresses then (sd.1, true)
      else ({ sd.1 with addresses := (addr, r.place_id) :: sd.1.addresses }, false)
    else sd

/-- The `# Check website domain` block, guarded by `if not is_dupe`. -/
def domainCheck (r : Record) (sd : DedupState × Bool) : DedupState × Bool :=
  if sd.2 then sd
  else if r.website ≠ "" then
    let domain := extract_domain r.website
    if domain ≠ "" ∧ domain ∉ EXCLUDED_DOMAINS then
      if keyMem domain sd.1.websites then (sd.1, true)
      else ({ sd.1 with websites := (domain, r.place_id) :: sd.1.websites }, false)
    else sd
  else sd

/-- One iteration of the `for r in records` loop of `deduplicate`,
parameterized by the address normalizer (`clean_data` and
`validate_and_clean` share the dedup code but use their own
`normalize_address`). -/
def dedupStep (na : String → String) (s : DedupState) (r : Record) :
    DedupState × Bool :=
  domainCheck r (addrCheck na r (phoneCheck r s))

/-- The loop of `deduplicate`: threads the tables through the records in
input order, collecting survivors (`unique`) and the duplicate count. -/
def dedupGo (na : String → String) (s : DedupState) :
    List Record → List Record × Nat
  | [] => ([], 0)
  | r :: rs =>
    let sd := dedupStep na s r
    let un := dedupGo na sd.1 rs
    if sd.2 then (un.1, un.2 + 1) else (r :: un.1, un.2)

def deduplicateWith (na : String → String) (records : List Record) :
    List Record × Nat :=
  dedupGo na emptyDedupState records

/-- `clean_data.deduplicate`. -/
def deduplicate (records : List Record) : List Record × Nat :=
  deduplicateWith normalize_address records

/-- `validate_and_clean.deduplicate`. -/
def deduplicate_v (records : List Record) : List Record × Nat :=
  deduplicateWith normalize_address_v records

/-! The three `DedupKey`s a record may carry (spec §3), read off the same
conditions `deduplicate` tests. -/

/-- The record's phone dedup key: its normalized phone, when that is a
10-digit string. -/
def phoneKey (r : Record) : Option String :=
  let p := normalize_phone r.phone
  if p ≠ "" ∧ p.length = 10 then some p else none

/-- The record's address dedup key: its normalized address, when longer
than 15 characters. -/
def addrKey (na : String → String) (r : Record) : Option String :=
  let a := na r.address
  if a ≠ "" ∧ 15 < a.length then some a else none

/-- The record's domain dedup key: the extracted domain of a non-empty
website, when non-empty and not a platform domain. -/
def domainKey (r : Record) : Option String :=
  if r.website ≠ "" then
    let d := extract_domain r.website
    if d ≠ "" ∧ d ∉ EXCLUDED_DOMAINS then some d else none
  else none

/-- Two records share a `DedupKey`. -/
def sharesKey (na : String → String) (a b : Record) : Prop :=
  (phoneKey a ≠ none ∧ phoneKey a = phoneKey b) ∨
  (addrKey na a ≠ none ∧ addrKey na a = addrKey na b) ∨
  (domainKey a ≠ none ∧ domainKey a = domainKey b)

instance (na : String → String) (a b : Record) : Decidable (sharesKey na a b) := by
  unfold sharesKey; infer_instance

/-! ## Quality scorer -/

/-- Python `round(x, 2)`.  Every value this pipeline rounds is
`k/10 / (17/2)` for an integer `0 ≤ k ≤ 85`; `100 * x = 20k/17` is never
half an odd integer (that would need `17 ∣ k` and `40k/17` odd, impossible),
so round-half-to-even and round-half-up agree everywhere the function is
used and `Int.round` models Python's rounding exactly. -/
def pyRound2 (q : Rat) : Rat := (round (q * 100) : Int) / 100

/-- `calculate_quality_score` (identical in both scripts): the running
`score`/`max_score` accumulation, then `round(score / max_score, 2)`.
Decimal literals of the source are exact rationals. -/
def calculate_quality_score (r : Record) : Rat :=
  let score : Rat := 0
  let score := score + (if r.name ≠ "" then 1 else 0)
  let score := score + (if r.phone ≠ "" then 1 else 0)
  let score := score + (if r.address ≠ "" then 1 else 0)
  let score := score + (if r.website ≠ "" then 1 else 0)
  let maxScore : Rat := 4
  let score := score + (if r.verified then 1 else 0)
  let score := score + (if r.business_status = "OPERATIONAL" then 1/2 else 0)
  let maxScore := maxScore + 3/2
  let score := score +
    (if r.reviews ≥ 50 then 1 else if r.reviews ≥ 20 then 7/10
     else if r.reviews ≥ 5 then 2/5 else if r.reviews ≥ 1 then 1/5 else 0)
  let maxScore := maxScore + 1
  let score := score +
    (if r.rating ≥ 9/2 then 1 else if r.rating ≥ 4 then 7/10
     else if r.rating ≥ 7/2 then 2/5 else 0)
  let maxScore := maxScore + 1
  let score := score +
    (if r.photos_count ≥ 10 then 1 else if r.photos_count ≥ 5 then 3/5
     else if r.photos_count ≥ 1 then 3/10 else 0)
  let maxScore := maxScore + 1
  pyRound2 (score / maxScore)

/-! The spec's five weighted groups (§4.4), written as the spec words them,
to compare with the accumulation above. -/

/-- Required-field presence: +1 per present field, max 4. -/
def scoreRequired (r : Record) : Rat :=
  (if r.name ≠ "" then 1 else 0) + (if r.phone ≠ "" then 1 else 0) +
  (if r.address ≠ "" then 1 else 0) + (if r.website ≠ "" then 1 else 0)

/-- Verification signals: +1 verified, +0.5 OPERATIONAL, max 1.5. -/
def scoreVerification (r : Record) : Rat :=
  (if r.verified then 1 else 0) +
  (if r.business_status = "OPERATIONAL" then 1/2 else 0)

/-- Review volume tier, max 1. -/
def scoreReviews (r : Record) : Rat :=
  if r.reviews ≥ 50 then 1 else if r.reviews ≥ 20 then 7/10
  else if r.reviews ≥ 5 then 2/5 else if r.reviews ≥ 1 then 1/5 else 0

/-- Rating tier, max 1. -/
def scoreRating (r : Record) : Rat :=
  if r.rating ≥ 9/2 then 1 else if r.rating ≥ 4 then 7/10
  else if r.rating ≥ 7/2 then 2/5 else 0

/-- Photo-count tier, max 1. -/
def scorePhotos (r : Record) : Rat :=
  if r.photos_count ≥ 10 then 1 else if r.photos_count ≥ 5 then 3/5
  else if r.photos_count ≥ 1 then 3/10 else 0

/-- The spec's `achieved_sum`: the five weighted groups summed. -/
def achievedSum (r : Record) : Rat :=
  scoreRequired r + scoreVerification r + scoreReviews r +
  scoreRating r + scorePhotos r

/-! ## Website validator (pure part) -/

/-- What the network did for one probe: the `async with session.head`
block either yields a response (status plus final redirected URL) or raises
— `asyncio.TimeoutError`, an `aiohttp.ClientError` subclass, or any other
exception class. -/
inductive ProbeOutcome where
  | response (status : Nat) (finalUrl : String)
  | timeout
  | clientError (excName : String)
  | otherExc (excName : String)
deriving DecidableEq, Repr

/-- `validate_and_clean.check_website`, with the network's behaviour passed
in as the `ProbeOutcome`: empty URL short-circuits to `no_url`; a scheme is
prepended when the stored value does not start with `http`; each `except`
arm returns its verdict dict instead of propagating the exception. -/
def check_website (url : String) (outcome : ProbeOutcome) : WCheck :=
  if url = "" then { url := url, status := .tag "no_url", reachable := false, finalUrl := none }
  else
    let url := if ¬ ("http".toList.isPrefixOf url.toList) then "https://" ++ url else url
    match outcome with
    | .response st fu =>
        { url := url, status := .code st, reachable := decide (st < 400), finalUrl := some fu }
    | .timeout =>
        { url := url, status := .tag "timeout", reachable := false, finalUrl := none }
    | .clientError e =>
        { url := url, status := .tag ("error:" ++ e), reachable := false, finalUrl := none }
    | .otherExc e =>
        { url := url, status := .tag ("error:" ++ e), reachable := false, finalUrl := none }

/-- `validate_websites`, with the network abstracted to `net` and the
nondeterministic `asyncio.as_completed` completion order modelled as
submission order (every record gets exactly one verdict attached as
`_website_check`; only the list order is scheduler-dependent). -/
def validate_websites_pure (net : String → ProbeOutcome) (records : List Record) :
    List Record :=
  records.map (fun r => { r with websiteCheck := some (check_website r.website (net r.website)) })

/-! ## Final sort (`list.sort(key=..., reverse=True)`) -/

/-- Insert a record coming *earlier* in the list being sorted into an
already sorted suffix: walk past strictly greater scores, stop at the first
score `≤` its own, so it lands before every equal-scored record that
followed it.  `foldr` with this insertion is a stable descending sort and
therefore extensionally equal to Python's stable
`list.sort(key=lambda x: x.get("_quality_score", 0), reverse=True)`. -/
def insertDescQ (x : Record) : List Record → List Record
  | [] => [x]
  | y :: ys =>
    if x.quality_score < y.quality_score then y :: insertDescQ x ys
    else x :: y :: ys

/-- Stable sort, non-increasing by `_quality_score`. -/
def stableSortQ (l : List Record) : List Record := l.foldr insertDescQ []

/-- Sorted non-increasing by quality score. -/
def SortedDescQ (l : List Record) : Prop :=
  l.Pairwise (fun a b => b.quality_score ≤ a.quality_score)

/-- The records of `l` whose quality score is exactly `q`, in order. -/
def scoreFilter (q : Rat) (l : List Record) : List Record :=
  l.filter (fun r => decide (r.quality_score = q))

/-- The list `validate_all` sorts at the end: validated records (those
with a website, each annotated) followed by the records without a website
(`all_validated = validated + without_websites`). -/
def mergedValidated (net : String → ProbeOutcome) (records : List Record) :
    List Record :=
  validate_websites_pure net (records.filter (fun r => r.website ≠ "")) ++
    records.filter (fun r => r.website = "")

/-- `validate_all` (pure part): validate the records that have a website,
re-append the website-less ones untouched, sort by quality score
descending. -/
def validate_all_pure (net : String → ProbeOutcome) (records : List Record) :
    List Record :=
  stableSortQ (mergedValidated net records)

/-- A record's keys are all absent from the given tables. -/
def FreshFor (na : String → String) (s : DedupState) (b : Record) : Prop :=
  (∀ k, phoneKey b = some k → keyMem k s.phones = false) ∧
  (∀ k, addrKey na b = some k → keyMem k s.addresses = false) ∧
  (∀ k, domainKey b = some k → keyMem k s.websites = false)

/-! Concrete fixtures used by counterexamples and witnesses. -/

/-- A network in which every probe times out. -/
def cexNet : String → ProbeOutcome := fun _ => ProbeOutcome.timeout

/-- First input record: no website. -/
def cexNoWebsite : Record := { name := "alpha", quality_score := 1 }

/-- Second input record: has a website and the same quality score. -/
def cexWithWebsite : Record := { name := "beta", website := "x.com", quality_score := 1 }

/-- `cexWithWebsite` after validation against `cexNet`. -/
def cexValidated : Record :=
  { cexWithWebsite with websiteCheck := some (check_website "x.com" ProbeOutcome.timeout) }

/-- A website-less record with a phone. -/
def cexPhoneOnly : Record := { name := "gamma", phone := "5551234567" }

end DumpsterMap

namespace DumpsterMap

/-! ## Concrete evaluation checks -/

example :
    should_remove { name := "Home Depot Rental", phone := "5551234567",
                    address := "1 Way", business_status := "CLOSED_PERMANENTLY" }
      = (true, "closed_permanently") := by decide

example :
    should_remove { name := "Home Depot Rental", phone := "5551234567",
                    address := "1 Way", business_status := "OPERATIONAL" }
      = (true, "big_box_retailer:home depot") := by decide

example :
    should_remove_v { name := "Home Depot Rental", phone := "5551234567",
                      address := "1 Way", business_status := "OPERATIONAL" }
      = (true, "big_box:home depot") := by decide

example : reasonOk "big_box:home depot" = false := by decide
example : reasonOkV "big_box:home depot" = true := by decide

example :
    should_remove { name := "Bob's Bins", phone := "", website := "",
                    address := "1 Way" } = (true, "missing_contact") := by decide

example :
    should_remove { name := "Junk King Boston", phone := "5551234567",
                    address := "1 Long Road Here", category := "junk removal service" }
      = (true, "junk_removal_only:junk king") := by decide

example :
    should_remove { name := "Junk King Boston", phone := "5551234567",
                    address := "1 Long Road Here",
                    category := "junk removal, dumpster rental" }
      = (false, "keep") := by decide

-- C1 counterexample trace: A (address only), B (fresh phone + same
-- address), C (same phone).  B is dropped by the address match but its
-- phone was already registered, so C is dropped too.
example :
    deduplicate
      [ { name := "A", address := "aaaa bbbb cccc dddd" },
        { name := "B", phone := "4155550100", address := "aaaa bbbb cccc dddd" },
        { name := "C", phone := "4155550100" } ]
      = ([ { name := "A", address := "aaaa bbbb cccc dddd" } ], 2) := by decide

-- spec §8 order-sensitivity example still holds: [A,B,C] keeps {A,C}
example :
    (deduplicate
      [ { name := "A", phone := "4155550100" },
        { name := "B", phone := "4155550100", address := "aaaa bbbb cccc dddd" },
        { name := "C", address := "aaaa bbbb cccc dddd" } ]).1
      = [ { name := "A", phone := "4155550100" },
          { name := "C", address := "aaaa bbbb cccc dddd" } ] := by decide

example :
    calculate_quality_score
      { name := "X", phone := "5", address := "a", website := "w",
        verified := true, business_status := "OPERATIONAL",
        reviews := 50, rating := 9/2, photos_count := 10 } = 1 := by
  simp [calculate_quality_score, pyRound2, round_eq]
  norm_num

example :
    calculate_quality_score { } = 0 := by
  simp [calculate_quality_score, pyRound2, round_eq,
    show ("":String) ≠ "OPERATIONAL" from by decide]
  norm_num

example :
    calculate_quality_score
      { name := "X", phone := "5", reviews := 7, rating := 4 } = 36/100 := by
  simp [calculate_quality_score, pyRound2, round_eq,
    show ("":String) ≠ "OPERATIONAL" from by decide]
  norm_num

example :
    check_website "x.com" ProbeOutcome.timeout
      = { url := "https://x.com", status := .tag "timeout",
          reachable := false, finalUrl := none } := by decide

example :
    check_website "http://x.com" (ProbeOutcome.response 301 "http://y.com")
      = { url := "http://x.com", status := .code 301,
          reachable := true, finalUrl := some "http://y.com" } := by decide

example :
    validate_all_pure (fun _ => ProbeOutcome.timeout)
      [ { name := "alpha", quality_score := 1 },
        { name := "beta", website := "x.com", quality_score := 1 } ]
      = [ { name := "beta", website := "x.com", quality_score := 1,
            websiteCheck := some { url := "https://x.com", status := .tag "timeout",
                                   reachable := false, finalUrl := none } },
          { name := "alpha", quality_score := 1 } ] := by decide

example : normalize_address "123 Main St" = "123 main street" := by decide
example : normalize_address_v "123 Main St" = "123 main street" := by decide
example : normalize_address "100 Sunset Blvd" = "100 sunset boulevard" := by decide
example : normalize_address_v "100 Sunset Blvd" = "100 sunset blvd" := by decide
example : normalize_phone "+1 (415) 555-0100" = "4155550100" := by decide
example : normalize_phone "" = "" := by decide
example : extract_domain "https://www.Example.com/a/b" = "example.com" := by decide
example : extract_domain "www.example.com" = "www.example.com" := by decide
example : extract_domain "http://example.com" = "example.com" := by decide
example : pyIn "home depot" "the home depot store" = true := by decide
example : normalize_address "  A   st  " = "a street" := by decide
example : normalize_address "street stir st" = "street stir street" := by decide

end DumpsterMap

namespace DumpsterMap

/-! # Theorems -/

/-! ## C6 — address normalization -/

/-- C6 (amended): `clean_data.normalize_address` is exactly the spec's
recipe (lower-case, trim, expand st/rd/ave/blvd/dr at word boundaries,
collapse whitespace), and `normalize_address("123 Main St") = "123 main
street"` holds for both scripts; but `validate_and_clean.normalize_address`
implements the recipe with only the st/rd/ave expansions (no blvd, no dr). -/
theorem normalize_address_follows_spec :
    (∀ a : String, normalize_address a = normalizeAddressSpec a) ∧
    (∀ a : String, normalize_address_v a = normalizeAddressSpec3 a) ∧
    normalize_address "123 Main St" = "123 main street" ∧
    normalize_address_v "123 Main St" = "123 main street" := by
  refine ⟨fun a => ?_, fun a => ?_, by decide, by decide⟩
  · by_cases h : a = ""
    · subst h; decide
    · rw [normalize_address, if_neg h]; rfl
  · by_cases h : a = ""
    · subst h; decide
    · rw [normalize_address_v, if_neg h]; rfl

/-- C6 counterexample: the claim says `normalizeAddress` expands `blvd`,
but `validate_and_clean.normalize_address` does not: on "100 Sunset Blvd"
it returns "100 sunset blvd" while the claimed recipe gives
"100 sunset boulevard". -/
theorem normalize_address_v_misses_blvd :
    normalize_address_v "100 Sunset Blvd" = "100 sunset blvd" ∧
    normalizeAddressSpec "100 Sunset Blvd" = "100 sunset boulevard" ∧
    normalize_address_v "100 Sunset Blvd" ≠ normalizeAddressSpec "100 Sunset Blvd" := by
  decide

end DumpsterMap

namespace DumpsterMap

/-! ## C3 — classifier -/

theorem reasonOk_big_box {bb : String} (h : bb ∈ BIG_BOX_RETAILERS) :
    reasonOk ("big_box_retailer:" ++ bb) = true := by
  fin_cases h <;> decide

theorem reasonOk_national {s : String} (h : s ∈ NATIONAL_WASTE_COMPANIES) :
    reasonOk ("national_chain:" ++ s) = true := by
  fin_cases h <;> decide

theorem reasonOk_junk {s : String} (h : s ∈ JUNK_REMOVAL_ONLY_KEYWORDS) :
    reasonOk ("junk_removal_only:" ++ s) = true := by
  fin_cases h <;> decide

theorem reasonOk_non_dumpster {s : String} (h : s ∈ NON_DUMPSTER_KEYWORDS) :
    reasonOk ("non_dumpster:" ++ s) = true := by
  fin_cases h <;> decide

theorem reasonOkV_big_box {bb : String} (h : bb ∈ BIG_BOX_RETAILERS) :
    reasonOkV ("big_box:" ++ bb) = true := by
  fin_cases h <;> decide

theorem reasonOkV_national {s : String} (h : s ∈ NATIONAL_WASTE_COMPANIES) :
    reasonOkV ("national_chain:" ++ s) = true := by
  fin_cases h <;> decide

theorem reasonOkV_junk {s : String} (h : s ∈ JUNK_REMOVAL_ONLY_KEYWORDS) :
    reasonOkV ("junk_only:" ++ s) = true := by
  fin_cases h <;> decide

theorem reasonOkV_non_dumpster {s : String} (h : s ∈ NON_DUMPSTER_KEYWORDS) :
    reasonOkV ("non_dumpster:" ++ s) = true := by
  fin_cases h <;> decide

/-- C3 (amended): both classifiers are total functions returning exactly one
reason; `clean_data.should_remove` draws it from the claim's enumerated set,
`validate_and_clean.should_remove` from the same set with `big_box:<match>`
and `junk_only:<match>` in place of `big_box_retailer:<match>` and
`junk_removal_only:<match>`; and the fixed priority order holds: a record
with all three required fields present and
`business_status = CLOSED_PERMANENTLY` is classified `closed_permanently`
by both, whatever its name contains. -/
theorem should_remove_total_enumerated_ordered :
    ∀ r : Record,
      reasonOk (should_remove r).2 = true ∧
      reasonOkV (should_remove_v r).2 = true ∧
      ((r.name ≠ "" → (r.phone ≠ "" ∨ r.website ≠ "") → r.address ≠ "" →
        r.business_status = "CLOSED_PERMANENTLY" →
          should_remove r = (true, "closed_permanently") ∧
          should_remove_v r = (true, "closed_permanently"))) := by
  intro r
  refine ⟨?_, ?_, ?_⟩
  · simp only [should_remove]
    split_ifs <;> try decide
    all_goals
      split
      · rename_i bb hbb
        exact reasonOk_big_box (List.mem_of_find?_eq_some hbb)
      · split
        · rename_i nwc hnwc
          exact reasonOk_national (List.mem_of_find?_eq_some hnwc)
        · split
          · rename_i kw hkw
            first
              | exact reasonOk_junk (List.mem_of_find?_eq_some hkw)
              | exact absurd hkw (by simp)
          · split
            · rename_i kw hkw
              exact reasonOk_non_dumpster (List.mem_of_find?_eq_some hkw)
            · decide
  · simp only [should_remove_v]
    split_ifs <;> try decide
    all_goals
      split
      · rename_i bb hbb
        exact reasonOkV_big_box (List.mem_of_find?_eq_some hbb)
      · split
        · rename_i nwc hnwc
          exact reasonOkV_national (List.mem_of_find?_eq_some hnwc)
        · split
          · rename_i kw hkw
            first
              | exact reasonOkV_junk (List.mem_of_find?_eq_some hkw)
              | exact absurd hkw (by simp)
          · split
            · rename_i kw hkw
              exact reasonOkV_non_dumpster (List.mem_of_find?_eq_some hkw)
            · decide
  · intro hname hcontact haddr hstatus
    have hc : ¬ (r.phone = "" ∧ r.website = "") := by
      rcases hcontact with h | h <;> simp [h]
    constructor
    · simp [should_remove, hname, hc, haddr, hstatus]
    · simp [should_remove_v, hname, hc, haddr, hstatus]

/-- C3 counterexample: `validate_and_clean.should_remove` labels a big-box
match `big_box:home depot`, which is not of any form in the claim's
enumerated reason set. -/
theorem should_remove_v_tag_outside_enumeration :
    should_remove_v { name := "Home Depot Rental", phone := "5551234567",
                      address := "1 Way" } = (true, "big_box:home depot") ∧
    reasonOk "big_box:home depot" = false := by
  decide

end DumpsterMap

namespace DumpsterMap

/-! ## C7 — website probe failure isolation -/

/-- C7: `check_website` is a total function of the URL and the probe's
outcome — one verdict per call, nothing propagates.  For a non-empty URL:
a response is `reachable` exactly when its status code is below 400, a
timeout yields status `"timeout"` and `reachable = false`, and any raised
exception (an `aiohttp.ClientError` or any other class) yields status
`"error:<exception-class>"` with `reachable = false`.  An empty URL gets
the `no_url` verdict whatever the network would have done. -/
theorem check_website_isolates_failures (url : String) (hne : url ≠ "") :
    (∀ st fu, (check_website url (.response st fu)).reachable = true ↔ st < 400) ∧
    ((check_website url .timeout).status = .tag "timeout" ∧
      (check_website url .timeout).reachable = false) ∧
    (∀ e, (check_website url (.clientError e)).status = .tag ("error:" ++ e) ∧
      (check_website url (.clientError e)).reachable = false) ∧
    (∀ e, (check_website url (.otherExc e)).status = .tag ("error:" ++ e) ∧
      (check_website url (.otherExc e)).reachable = false) ∧
    (∀ o, check_website "" o =
      { url := "", status := .tag "no_url", reachable := false, finalUrl := none }) := by
  refine ⟨fun st fu => ?_, ?_, fun e => ?_, fun e => ?_, fun o => ?_⟩ <;>
    simp [check_website, hne]

/-- Concrete instance of `check_website_isolates_failures` at
`url = "x.com"`. -/
theorem check_website_isolates_failures_witness :
    (∀ st fu, (check_website "x.com" (.response st fu)).reachable = true ↔ st < 400) ∧
    ((check_website "x.com" .timeout).status = .tag "timeout" ∧
      (check_website "x.com" .timeout).reachable = false) ∧
    (∀ e, (check_website "x.com" (.clientError e)).status = .tag ("error:" ++ e) ∧
      (check_website "x.com" (.clientError e)).reachable = false) ∧
    (∀ e, (check_website "x.com" (.otherExc e)).status = .tag ("error:" ++ e) ∧
      (check_website "x.com" (.otherExc e)).reachable = false) ∧
    (∀ o, check_website "" o =
      { url := "", status := .tag "no_url", reachable := false, finalUrl := none }) :=
  check_website_isolates_failures "x.com" (by decide)

/-! ## C9 — quality score -/

theorem scoreRequired_bounds (r : Record) :
    0 ≤ scoreRequired r ∧ scoreRequired r ≤ 4 := by
  unfold scoreRequired; split_ifs <;> norm_num

theorem scoreVerification_bounds (r : Record) :
    0 ≤ scoreVerification r ∧ scoreVerification r ≤ 3/2 := by
  unfold scoreVerification; split_ifs <;> norm_num

theorem scoreReviews_bounds (r : Record) :
    0 ≤ scoreReviews r ∧ scoreReviews r ≤ 1 := by
  unfold scoreReviews; split_ifs <;> norm_num

theorem scoreRating_bounds (r : Record) :
    0 ≤ scoreRating r ∧ scoreRating r ≤ 1 := by
  unfold scoreRating; split_ifs <;> norm_num

theorem scorePhotos_bounds (r : Record) :
    0 ≤ scorePhotos r ∧ scorePhotos r ≤ 1 := by
  unfold scorePhotos; split_ifs <;> norm_num

theorem achievedSum_bounds (r : Record) :
    0 ≤ achievedSum r ∧ achievedSum r ≤ 17/2 := by
  obtain ⟨a1, b1⟩ := scoreRequired_bounds r
  obtain ⟨a2, b2⟩ := scoreVerification_bounds r
  obtain ⟨a3, b3⟩ := scoreReviews_bounds r
  obtain ⟨a4, b4⟩ := scoreRating_bounds r
  obtain ⟨a5, b5⟩ := scorePhotos_bounds r
  unfold achievedSum
  constructor <;> linarith

theorem pyRound2_bounds (q : Rat) (h0 : 0 ≤ q) (h1 : q ≤ 1) :
    0 ≤ pyRound2 q ∧ pyRound2 q ≤ 1 := by
  unfold pyRound2
  have l0 : (0 : Int) ≤ round (q * 100) := by
    calc (0 : Int) = round ((0 : Rat)) := by rw [round_zero]
      _ ≤ round (q * 100) := by
          rw [round_eq, round_eq]
          exact Int.floor_le_floor (by linarith)
  have l1 : round (q * 100) ≤ 100 := by
    calc round (q * 100) ≤ round ((100 : Rat)) := by
          rw [round_eq, round_eq]
          exact Int.floor_le_floor (by linarith)
      _ = 100 := by norm_num [round_eq]
  constructor
  · have : (0 : Rat) ≤ ((round (q * 100) : Int) : Rat) := by exact_mod_cast l0
    positivity
  · rw [div_le_one (by norm_num)]
    exact_mod_cast l1

/-- C9: the quality score is exactly `round(achieved_sum / 8.5, 2)` where
`achieved_sum` is the sum of the spec's five weighted groups
(required-field presence ≤ 4, verification signals ≤ 1.5, review volume
≤ 1, rating ≤ 1, photo count ≤ 1; absent fields contribute 0), and it
always lies in `[0, 1]`. -/
theorem quality_score_formula_and_bounds :
    ∀ r : Record,
      calculate_quality_score r = pyRound2 (achievedSum r / (17/2)) ∧
      0 ≤ calculate_quality_score r ∧ calculate_quality_score r ≤ 1 := by
  intro r
  have hforms : calculate_quality_score r = pyRound2 (achievedSum r / (17/2)) := by
    simp only [calculate_quality_score, achievedSum, scoreRequired,
      scoreVerification, scoreReviews, scoreRating, scorePhotos]
    congr 1
    ring_nf
  refine ⟨hforms, ?_⟩
  rw [hforms]
  obtain ⟨ha, hb⟩ := achievedSum_bounds r
  exact pyRound2_bounds _ (by positivity) (by rw [div_le_one (by norm_num)]; linarith)

end DumpsterMap

namespace DumpsterMap

/-! ## Deduplicator lemmas -/

theorem keyMem_cons (k : String) (p : String × String) (t : List (String × String)) :
    keyMem k (p :: t) = (p.1 == k || keyMem k t) := by
  simp [keyMem]

theorem keyMem_nil (k : String) : keyMem k [] = false := rfl

theorem phoneCheck_snd_true {r : Record} {s : DedupState}
    (h : (phoneCheck r s).2 = true) : phoneCheck r s = (s, true) := by
  simp only [phoneCheck] at h ⊢
  split_ifs at h ⊢ <;> simp_all

theorem phoneCheck_none {r : Record} {s : DedupState}
    (h : phoneKey r = none) : phoneCheck r s = (s, false) := by
  simp only [phoneKey] at h
  simp only [phoneCheck]
  split_ifs at * <;> simp_all

theorem phoneCheck_dupe {r : Record} {s : DedupState} {k : String}
    (h : phoneKey r = some k) (hm : keyMem k s.phones = true) :
    phoneCheck r s = (s, true) := by
  simp only [phoneKey] at h
  split_ifs at h with hc <;> simp only [Option.some.injEq] at h
  subst h
  simp [phoneCheck, hc, hm]

theorem phoneCheck_fresh {r : Record} {s : DedupState} {k : String}
    (h : phoneKey r = some k) (hm : keyMem k s.phones = false) :
    phoneCheck r s = ({ s with phones := (k, r.place_id) :: s.phones }, false) := by
  simp only [phoneKey] at h
  split_ifs at h with hc <;> simp only [Option.some.injEq] at h
  subst h
  simp [phoneCheck, hc, hm]

theorem phoneCheck_addresses_eq (r : Record) (s : DedupState) :
    (phoneCheck r s).1.addresses = s.addresses := by
  simp only [phoneCheck]
  split_ifs <;> rfl

theorem phoneCheck_websites_eq (r : Record) (s : DedupState) :
    (phoneCheck r s).1.websites = s.websites := by
  simp only [phoneCheck]
  split_ifs <;> rfl

theorem phoneCheck_phones_mono {r : Record} {s : DedupState} {k : String}
    (h : keyMem k s.phones = true) : keyMem k (phoneCheck r s).1.phones = true := by
  simp only [phoneCheck]
  split_ifs <;> simp_all [keyMem_cons]

theorem addrCheck_pass (na : String → String) (r : Record) {sd : DedupState × Bool}
    (h : sd.2 = true) : addrCheck na r sd = sd := by
  simp only [addrCheck]
  rw [if_pos h]

theorem addrCheck_none (na : String → String) {r : Record} (sd : DedupState × Bool)
    (h : addrKey na r = none) : addrCheck na r sd = sd := by
  simp only [addrKey] at h
  simp only [addrCheck]
  split_ifs at * <;> simp_all

theorem addrCheck_dupe {na : String → String} {r : Record} {s : DedupState} {k : String}
    (h : addrKey na r = some k) (hm : keyMem k s.addresses = true) :
    addrCheck na r (s, false) = (s, true) := by
  simp only [addrKey] at h
  split_ifs at h with hc <;> simp only [Option.some.injEq] at h
  subst h
  simp [addrCheck, hc, hm]

theorem addrCheck_fresh {na : String → String} {r : Record} {s : DedupState} {k : String}
    (h : addrKey na r = some k) (hm : keyMem k s.addresses = false) :
    addrCheck na r (s, false) =
      ({ s with addresses := (k, r.place_id) :: s.addresses }, false) := by
  simp only [addrKey] at h
  split_ifs at h with hc <;> simp only [Option.some.injEq] at h
  subst h
  simp [addrCheck, hc, hm]

theorem addrCheck_phones_eq (na : String → String) (r : Record) (sd : DedupState × Bool) :
    (addrCheck na r sd).1.phones = sd.1.phones := by
  simp only [addrCheck]
  split_ifs <;> rfl

theorem addrCheck_websites_eq (na : String → String) (r : Record) (sd : DedupState × Bool) :
    (addrCheck na r sd).1.websites = sd.1.websites := by
  simp only [addrCheck]
  split_ifs <;> rfl

theorem addrCheck_addresses_mono {na : String → String} {r : Record}
    {sd : DedupState × Bool} {k : String} (h : keyMem k sd.1.addresses = true) :
    keyMem k (addrCheck na r sd).1.addresses = true := by
  simp only [addrCheck]
  split_ifs <;> simp_all [keyMem_cons]

theorem domainCheck_pass (r : Record) {sd : DedupState × Bool}
    (h : sd.2 = true) : domainCheck r sd = sd := by
  simp only [domainCheck]
  rw [if_pos h]

theorem domainCheck_none {r : Record} (sd : DedupState × Bool)
    (h : domainKey r = none) : domainCheck r sd = sd := by
  simp only [domainKey] at h
  simp only [domainCheck]
  split_ifs at * <;> simp_all

theorem domainCheck_dupe {r : Record} {s : DedupState} {k : String}
    (h : domainKey r = some k) (hm : keyMem k s.websites = true) :
    domainCheck r (s, false) = (s, true) := by
  simp only [domainKey] at h
  split_ifs at h with hw hc <;> simp only [Option.some.injEq] at h
  subst h
  simp [domainCheck, hw, hc, hm]

theorem domainCheck_fresh {r : Record} {s : DedupState} {k : String}
    (h : domainKey r = some k) (hm : keyMem k s.websites = false) :
    domainCheck r (s, false) =
      ({ s with websites := (k, r.place_id) :: s.websites }, false) := by
  simp only [domainKey] at h
  split_ifs at h with hw hc <;> simp only [Option.some.injEq] at h
  subst h
  simp [domainCheck, hw, hc, hm]

theorem domainCheck_phones_eq (r : Record) (sd : DedupState × Bool) :
    (domainCheck r sd).1.phones = sd.1.phones := by
  simp only [domainCheck]
  split_ifs <;> rfl

theorem domainCheck_addresses_eq (r : Record) (sd : DedupState × Bool) :
    (domainCheck r sd).1.addresses = sd.1.addresses := by
  simp only [domainCheck]
  split_ifs <;> rfl

theorem domainCheck_websites_mono {r : Record} {sd : DedupState × Bool} {k : String}
    (h : keyMem k sd.1.websites = true) :
    keyMem k (domainCheck r sd).1.websites = true := by
  simp only [domainCheck]
  split_ifs <;> simp_all [keyMem_cons]

end DumpsterMap

namespace DumpsterMap

/-! ## Step-level deduplicator lemmas -/

theorem dedupStep_of_phone_dupe (na : String → String) {s : DedupState} {r : Record}
    {k : String} (h : phoneKey r = some k) (hm : keyMem k s.phones = true) :
    dedupStep na s r = (s, true) := by
  unfold dedupStep
  rw [phoneCheck_dupe h hm, addrCheck_pass na r rfl, domainCheck_pass r rfl]

theorem dedupStep_phones_mono (na : String → String) {s : DedupState} {r : Record}
    {k : String} (h : keyMem k s.phones = true) :
    keyMem k (dedupStep na s r).1.phones = true := by
  unfold dedupStep
  rw [domainCheck_phones_eq, addrCheck_phones_eq]
  exact phoneCheck_phones_mono h

theorem dedupStep_addresses_mono (na : String → String) {s : DedupState} {r : Record}
    {k : String} (h : keyMem k s.addresses = true) :
    keyMem k (dedupStep na s r).1.addresses = true := by
  unfold dedupStep
  rw [domainCheck_addresses_eq]
  exact addrCheck_addresses_mono (by rw [phoneCheck_addresses_eq]; exact h)

theorem dedupStep_websites_mono (na : String → String) {s : DedupState} {r : Record}
    {k : String} (h : keyMem k s.websites = true) :
    keyMem k (dedupStep na s r).1.websites = true := by
  unfold dedupStep
  exact domainCheck_websites_mono
    (by rw [addrCheck_websites_eq, phoneCheck_websites_eq]; exact h)

theorem dedupStep_false_phoneKey (na : String → String) {s : DedupState} {r : Record}
    {k : String} (h : phoneKey r = some k) (hst : (dedupStep na s r).2 = false) :
    keyMem k s.phones = false ∧ keyMem k (dedupStep na s r).1.phones = true := by
  cases hkm : keyMem k s.phones with
  | true =>
    rw [dedupStep_of_phone_dupe na h hkm] at hst
    simp at hst
  | false =>
    have hpc := phoneCheck_fresh h hkm
    refine ⟨rfl, ?_⟩
    unfold dedupStep
    rw [domainCheck_phones_eq, addrCheck_phones_eq, hpc]
    simp [keyMem_cons]

theorem dedupStep_false_addrKey (na : String → String) {s : DedupState} {r : Record}
    {k : String} (h : addrKey na r = some k) (hst : (dedupStep na s r).2 = false) :
    keyMem k s.addresses = false ∧ keyMem k (dedupStep na s r).1.addresses = true := by
  cases hpc2 : (phoneCheck r s).2 with
  | true =>
    exfalso
    have hpc := phoneCheck_snd_true hpc2
    unfold dedupStep at hst
    rw [hpc, addrCheck_pass na r rfl, domainCheck_pass r rfl] at hst
    simp at hst
  | false =>
    have haddr1 : (phoneCheck r s).1.addresses = s.addresses := phoneCheck_addresses_eq r s
    have hps : phoneCheck r s = ((phoneCheck r s).1, false) := by
      rw [← hpc2]
    cases hkm : keyMem k s.addresses with
    | true =>
      exfalso
      have hkm1 : keyMem k (phoneCheck r s).1.addresses = true := by rw [haddr1]; exact hkm
      unfold dedupStep at hst
      rw [hps, addrCheck_dupe h hkm1, domainCheck_pass r rfl] at hst
      simp at hst
    | false =>
      have hkm1 : keyMem k (phoneCheck r s).1.addresses = false := by rw [haddr1]; exact hkm
      refine ⟨rfl, ?_⟩
      unfold dedupStep
      rw [hps, addrCheck_fresh h hkm1, domainCheck_addresses_eq]
      simp [keyMem_cons]

theorem dedupStep_false_domainKey (na : String → String) {s : DedupState} {r : Record}
    {k : String} (h : domainKey r = some k) (hst : (dedupStep na s r).2 = false) :
    keyMem k s.websites = false ∧ keyMem k (dedupStep na s r).1.websites = true := by
  have hweq : (addrCheck na r (phoneCheck r s)).1.websites = s.websites := by
    rw [addrCheck_websites_eq, phoneCheck_websites_eq]
  cases haf2 : (addrCheck na r (phoneCheck r s)).2 with
  | true =>
    exfalso
    unfold dedupStep at hst
    rw [domainCheck_pass _ haf2] at hst
    rw [haf2] at hst
    simp at hst
  | false =>
    have has : addrCheck na r (phoneCheck r s) = ((addrCheck na r (phoneCheck r s)).1, false) := by
      rw [← haf2]
    cases hkm : keyMem k s.websites with
    | true =>
      exfalso
      have hkm1 : keyMem k (addrCheck na r (phoneCheck r s)).1.websites = true := by
        rw [hweq]; exact hkm
      unfold dedupStep at hst
      rw [has, domainCheck_dupe h hkm1] at hst
      simp at hst
    | false =>
      have hkm1 : keyMem k (addrCheck na r (phoneCheck r s)).1.websites = false := by
        rw [hweq]; exact hkm
      refine ⟨rfl, ?_⟩
      unfold dedupStep
      rw [has, domainCheck_fresh h hkm1]
      simp [keyMem_cons]

end DumpsterMap

namespace DumpsterMap

/-! ## Characterization of a surviving step's tables -/

theorem dedupStep_false_phones_char (na : String → String) {s : DedupState} {r : Record}
    (hst : (dedupStep na s r).2 = false) (k : String) :
    (keyMem k (dedupStep na s r).1.phones = true ↔
      keyMem k s.phones = true ∨ phoneKey r = some k) := by
  cases hpk : phoneKey r with
  | none =>
    unfold dedupStep
    rw [domainCheck_phones_eq, addrCheck_phones_eq, phoneCheck_none hpk]
    simp
  | some p =>
    cases hkm : keyMem p s.phones with
    | true =>
      exfalso
      rw [dedupStep_of_phone_dupe na hpk hkm] at hst
      simp at hst
    | false =>
      unfold dedupStep
      rw [domainCheck_phones_eq, addrCheck_phones_eq, phoneCheck_fresh hpk hkm]
      simp only [keyMem_cons, Bool.or_eq_true, beq_iff_eq, Option.some.injEq]
      constructor
      · rintro (rfl | hm)
        · exact Or.inr rfl
        · exact Or.inl hm
      · rintro (hm | rfl)
        · exact Or.inr hm
        · exact Or.inl rfl

theorem dedupStep_false_addresses_char (na : String → String) {s : DedupState} {r : Record}
    (hst : (dedupStep na s r).2 = false) (k : String) :
    (keyMem k (dedupStep na s r).1.addresses = true ↔
      keyMem k s.addresses = true ∨ addrKey na r = some k) := by
  cases hpc2 : (phoneCheck r s).2 with
  | true =>
    exfalso
    unfold dedupStep at hst
    rw [phoneCheck_snd_true hpc2, addrCheck_pass na r rfl, domainCheck_pass r rfl] at hst
    simp at hst
  | false =>
    have haddr1 : (phoneCheck r s).1.addresses = s.addresses := phoneCheck_addresses_eq r s
    have hps : phoneCheck r s = ((phoneCheck r s).1, false) := by rw [← hpc2]
    cases hak : addrKey na r with
    | none =>
      unfold dedupStep
      rw [domainCheck_addresses_eq, addrCheck_none na _ hak, hps, haddr1]
      simp
    | some a =>
      cases hkm : keyMem a s.addresses with
      | true =>
        exfalso
        have hkm1 : keyMem a (phoneCheck r s).1.addresses = true := by rw [haddr1]; exact hkm
        unfold dedupStep at hst
        rw [hps, addrCheck_dupe hak hkm1, domainCheck_pass r rfl] at hst
        simp at hst
      | false =>
        have hkm1 : keyMem a (phoneCheck r s).1.addresses = false := by rw [haddr1]; exact hkm
        unfold dedupStep
        rw [hps, addrCheck_fresh hak hkm1, domainCheck_addresses_eq]
        simp only [keyMem_cons, Bool.or_eq_true, beq_iff_eq, Option.some.injEq, haddr1]
        constructor
        · rintro (rfl | hm)
          · exact Or.inr rfl
          · exact Or.inl hm
        · rintro (hm | rfl)
          · exact Or.inr hm
          · exact Or.inl rfl

theorem dedupStep_false_websites_char (na : String → String) {s : DedupState} {r : Record}
    (hst : (dedupStep na s r).2 = false) (k : String) :
    (keyMem k (dedupStep na s r).1.websites = true ↔
      keyMem k s.websites = true ∨ domainKey r = some k) := by
  have hweq : (addrCheck na r (phoneCheck r s)).1.websites = s.websites := by
    rw [addrCheck_websites_eq, phoneCheck_websites_eq]
  cases haf2 : (addrCheck na r (phoneCheck r s)).2 with
  | true =>
    exfalso
    unfold dedupStep at hst
    rw [domainCheck_pass _ haf2, haf2] at hst
    simp at hst
  | false =>
    have has : addrCheck na r (phoneCheck r s) = ((addrCheck na r (phoneCheck r s)).1, false) := by
      rw [← haf2]
    cases hdk : domainKey r with
    | none =>
      unfold dedupStep
      rw [domainCheck_none _ hdk, hweq]
      simp
    | some d =>
      cases hkm : keyMem d s.websites with
      | true =>
        exfalso
        have hkm1 : keyMem d (addrCheck na r (phoneCheck r s)).1.websites = true := by
          rw [hweq]; exact hkm
        unfold dedupStep at hst
        rw [has, domainCheck_dupe hdk hkm1] at hst
        simp at hst
      | false =>
        have hkm1 : keyMem d (addrCheck na r (phoneCheck r s)).1.websites = false := by
          rw [hweq]; exact hkm
        unfold dedupStep
        rw [has, domainCheck_fresh hdk hkm1]
        simp only [keyMem_cons, Bool.or_eq_true, beq_iff_eq, Option.some.injEq]
        rw [show ((addrCheck na r (phoneCheck r s)).1).websites = s.websites from hweq]
        constructor
        · rintro (rfl | hm)
          · exact Or.inr rfl
          · exact Or.inl hm
        · rintro (hm | rfl)
          · exact Or.inr hm
          · exact Or.inl rfl

/-- A record none of whose keys is already in the tables survives its step. -/
theorem dedupStep_fresh_survives (na : String → String) {s : DedupState} {r : Record}
    (hp : ∀ k, phoneKey r = some k → keyMem k s.phones = false)
    (ha : ∀ k, addrKey na r = some k → keyMem k s.addresses = false)
    (hd : ∀ k, domainKey r = some k → keyMem k s.websites = false) :
    (dedupStep na s r).2 = false := by
  have hpc : ∃ s1 : DedupState, phoneCheck r s = (s1, false) ∧
      s1.addresses = s.addresses ∧ s1.websites = s.websites := by
    cases hpk : phoneKey r with
    | none => exact ⟨s, phoneCheck_none hpk, rfl, rfl⟩
    | some p => exact ⟨_, phoneCheck_fresh hpk (hp p hpk), rfl, rfl⟩
  obtain ⟨s1, hpc, ha1, hw1⟩ := hpc
  have hac : ∃ s2 : DedupState, addrCheck na r (phoneCheck r s) = (s2, false) ∧
      s2.websites = s.websites := by
    cases hak : addrKey na r with
    | none => exact ⟨s1, by rw [hpc, addrCheck_none na _ hak], hw1⟩
    | some a =>
      have hkm1 : keyMem a s1.addresses = false := by rw [ha1]; exact ha a hak
      exact ⟨{ s1 with addresses := (a, r.place_id) :: s1.addresses },
        by rw [hpc, addrCheck_fresh hak hkm1], hw1⟩
  obtain ⟨s2, hac, hw2⟩ := hac
  unfold dedupStep
  cases hdk : domainKey r with
  | none => rw [hac, domainCheck_none _ hdk]
  | some d =>
    have hkm2 : keyMem d s2.websites = false := by rw [hw2]; exact hd d hdk
    rw [hac, domainCheck_fresh hdk hkm2]

end DumpsterMap

namespace DumpsterMap

/-! ## Loop-level deduplicator lemmas -/

theorem freshFor_of_step (na : String → String) {s : DedupState} {r b : Record}
    (h : FreshFor na (dedupStep na s r).1 b) : FreshFor na s b := by
  obtain ⟨f1, f2, f3⟩ := h
  refine ⟨fun k hk => ?_, fun k hk => ?_, fun k hk => ?_⟩
  · cases hc : keyMem k s.phones with
    | false => rfl
    | true =>
      exfalso
      have hmono := dedupStep_phones_mono na (r := r) hc
      rw [f1 k hk] at hmono
      exact absurd hmono (by simp)
  · cases hc : keyMem k s.addresses with
    | false => rfl
    | true =>
      exfalso
      have hmono := dedupStep_addresses_mono na (r := r) hc
      rw [f2 k hk] at hmono
      exact absurd hmono (by simp)
  · cases hc : keyMem k s.websites with
    | false => rfl
    | true =>
      exfalso
      have hmono := dedupStep_websites_mono na (r := r) hc
      rw [f3 k hk] at hmono
      exact absurd hmono (by simp)

theorem dedupGo_cons (na : String → String) (s : DedupState) (r : Record)
    (rs : List Record) :
    dedupGo na s (r :: rs) =
      (if (dedupStep na s r).2 then
        ((dedupGo na (dedupStep na s r).1 rs).1, (dedupGo na (dedupStep na s r).1 rs).2 + 1)
      else
        (r :: (dedupGo na (dedupStep na s r).1 rs).1, (dedupGo na (dedupStep na s r).1 rs).2)) :=
  rfl

/-- Every survivor's keys were absent from the tables the scan started
from (they were first seen, and registered, at that survivor's own step). -/
theorem dedupGo_survivor_fresh (na : String → String) :
    ∀ (l : List Record) (s : DedupState) (b : Record),
      b ∈ (dedupGo na s l).1 → FreshFor na s b := by
  intro l
  induction l with
  | nil => intro s b hb; simp [dedupGo] at hb
  | cons r rs ih =>
    intro s b hb
    rw [dedupGo_cons] at hb
    by_cases hd : (dedupStep na s r).2 = true
    · rw [if_pos hd] at hb
      exact freshFor_of_step na (ih _ b hb)
    · rw [if_neg hd] at hb
      have hdf : (dedupStep na s r).2 = false := by
        cases h : (dedupStep na s r).2
        · rfl
        · exact absurd h hd
      rcases List.mem_cons.mp hb with rfl | hb
      · exact ⟨fun k hk => (dedupStep_false_phoneKey na hk hdf).1,
          fun k hk => (dedupStep_false_addrKey na hk hdf).1,
          fun k hk => (dedupStep_false_domainKey na hk hdf).1⟩
      · exact freshFor_of_step na (ih _ b hb)

/-- No two survivors of one scan share any dedup key. -/
theorem dedupGo_pairwise (na : String → String) :
    ∀ (l : List Record) (s : DedupState),
      ((dedupGo na s l).1).Pairwise (fun a b => ¬ sharesKey na a b) := by
  intro l
  induction l with
  | nil => intro s; simp [dedupGo]
  | cons r rs ih =>
    intro s
    rw [dedupGo_cons]
    by_cases hd : (dedupStep na s r).2 = true
    · rw [if_pos hd]
      exact ih _
    · rw [if_neg hd]
      have hdf : (dedupStep na s r).2 = false := by
        cases h : (dedupStep na s r).2
        · rfl
        · exact absurd h hd
      refine List.Pairwise.cons ?_ (ih _)
      intro b hb hshare
      obtain ⟨f1, f2, f3⟩ := dedupGo_survivor_fresh na rs (dedupStep na s r).1 b hb
      rcases hshare with ⟨hne, heq⟩ | ⟨hne, heq⟩ | ⟨hne, heq⟩
      · cases hpk : phoneKey r with
        | none => exact hne hpk
        | some k =>
          have hreg := (dedupStep_false_phoneKey na hpk hdf).2
          have hfr := f1 k (by rw [← heq, hpk])
          rw [hfr] at hreg
          exact absurd hreg (by simp)
      · cases hak : addrKey na r with
        | none => exact hne hak
        | some k =>
          have hreg := (dedupStep_false_addrKey na hak hdf).2
          have hfr := f2 k (by rw [← heq, hak])
          rw [hfr] at hreg
          exact absurd hreg (by simp)
      · cases hdk : domainKey r with
        | none => exact hne hdk
        | some k =>
          have hreg := (dedupStep_false_domainKey na hdk hdf).2
          have hfr := f3 k (by rw [← heq, hdk])
          rw [hfr] at hreg
          exact absurd hreg (by simp)

/-- Scanning a list of pairwise key-disjoint records whose keys are all
fresh for the starting tables keeps every record and counts no duplicate. -/
theorem dedupGo_of_fresh_pairwise (na : String → String) :
    ∀ (l : List Record) (s : DedupState),
      (∀ b ∈ l, FreshFor na s b) →
      l.Pairwise (fun a b => ¬ sharesKey na a b) →
      dedupGo na s l = (l, 0) := by
  intro l
  induction l with
  | nil => intro s _ _; rfl
  | cons r rs ih =>
    intro s hfresh hpw
    obtain ⟨hpr, har, hdr⟩ := hfresh r (List.mem_cons_self r rs)
    have hdf : (dedupStep na s r).2 = false := dedupStep_fresh_survives na hpr har hdr
    have hhead := (List.pairwise_cons.mp hpw).1
    have htail : ∀ b ∈ rs, FreshFor na (dedupStep na s r).1 b := by
      intro b hb
      obtain ⟨g1, g2, g3⟩ := hfresh b (List.mem_cons_of_mem r hb)
      have hnshare := hhead b hb
      refine ⟨fun k hk => ?_, fun k hk => ?_, fun k hk => ?_⟩
      · cases hv : keyMem k (dedupStep na s r).1.phones with
        | false => rfl
        | true =>
          exfalso
          rcases (dedupStep_false_phones_char na hdf k).mp hv with hm | hm
          · rw [g1 k hk] at hm; exact absurd hm (by simp)
          · exact hnshare (Or.inl ⟨by rw [hm]; simp, by rw [hm, hk]⟩)
      · cases hv : keyMem k (dedupStep na s r).1.addresses with
        | false => rfl
        | true =>
          exfalso
          rcases (dedupStep_false_addresses_char na hdf k).mp hv with hm | hm
          · rw [g2 k hk] at hm; exact absurd hm (by simp)
          · exact hnshare (Or.inr (Or.inl ⟨by rw [hm]; simp, by rw [hm, hk]⟩))
      · cases hv : keyMem k (dedupStep na s r).1.websites with
        | false => rfl
        | true =>
          exfalso
          rcases (dedupStep_false_websites_char na hdf k).mp hv with hm | hm
          · rw [g3 k hk] at hm; exact absurd hm (by simp)
          · exact hnshare (Or.inr (Or.inr ⟨by rw [hm]; simp, by rw [hm, hk]⟩))
    rw [dedupGo_cons, if_neg (by rw [hdf]; exact Bool.false_ne_true),
      ih _ htail (List.pairwise_cons.mp hpw).2]

end DumpsterMap

namespace DumpsterMap

/-! ## C4 — survivors per key, C5 — idempotence, C1 — greedy drop -/

/-- C4: after deduplication (with either script's address normalizer), no
two surviving records share any `DedupKey`: no common 10-digit normalized
phone, no common normalized address longer than 15 characters, no common
non-excluded website domain. -/
theorem dedup_survivors_share_no_key :
    ∀ rs : List Record,
      ((deduplicate rs).1).Pairwise (fun a b => ¬ sharesKey normalize_address a b) ∧
      ((deduplicate_v rs).1).Pairwise (fun a b => ¬ sharesKey normalize_address_v a b) :=
  fun rs => ⟨dedupGo_pairwise normalize_address rs emptyDedupState,
    dedupGo_pairwise normalize_address_v rs emptyDedupState⟩

/-- C5: deduplication is idempotent — run on its own survivor list it
returns that list unchanged, in order, with a duplicate count of zero
(for either script's deduplicator). -/
theorem dedup_idempotent :
    ∀ rs : List Record,
      deduplicate ((deduplicate rs).1) = ((deduplicate rs).1, 0) ∧
      deduplicate_v ((deduplicate_v rs).1) = ((deduplicate_v rs).1, 0) := by
  intro rs
  constructor
  · exact dedupGo_of_fresh_pairwise normalize_address (deduplicate rs).1 emptyDedupState
      (fun b _ => ⟨fun _ _ => rfl, fun _ _ => rfl, fun _ _ => rfl⟩)
      (dedupGo_pairwise normalize_address rs emptyDedupState)
  · exact dedupGo_of_fresh_pairwise normalize_address_v (deduplicate_v rs).1 emptyDedupState
      (fun b _ => ⟨fun _ _ => rfl, fun _ _ => rfl, fun _ _ => rfl⟩)
      (dedupGo_pairwise normalize_address_v rs emptyDedupState)

/-- C1 (amended): a duplicate is dropped at the *first* matching key in
the phone → address → domain check order, and registers none of its keys
checked *after* that key; but every fresh key checked *before* the
matching one has already been written into the tables by the time the
record is dropped — a record dropped by an address match still registers
its fresh 10-digit phone (and one dropped by a domain match registers its
fresh phone and address), so a dropped record can cause later records to
be dropped on those earlier-checked keys.  The first record to *register*
a key claims it, whether or not that record itself survives. -/
theorem dedup_drop_registers_only_earlier_keys (na : String → String)
    (s : DedupState) (r : Record) :
    ((∀ k, phoneKey r = some k → keyMem k s.phones = true →
        dedupStep na s r = (s, true)) ∧
     ((∀ k, phoneKey r = some k → keyMem k s.phones = false) →
      ∀ a, addrKey na r = some a → keyMem a s.addresses = true →
        (dedupStep na s r).2 = true ∧
        (dedupStep na s r).1.addresses = s.addresses ∧
        (dedupStep na s r).1.websites = s.websites ∧
        (∀ k, phoneKey r = some k → keyMem k (dedupStep na s r).1.phones = true)) ∧
     ((∀ k, phoneKey r = some k → keyMem k s.phones = false) →
      (∀ a, addrKey na r = some a → keyMem a s.addresses = false) →
      ∀ d, domainKey r = some d → keyMem d s.websites = true →
        (dedupStep na s r).2 = true ∧
        (dedupStep na s r).1.websites = s.websites ∧
        (∀ k, phoneKey r = some k → keyMem k (dedupStep na s r).1.phones = true) ∧
        (∀ a, addrKey na r = some a → keyMem a (dedupStep na s r).1.addresses = true))) := by
  refine ⟨fun k hk hm => dedupStep_of_phone_dupe na hk hm, ?_, ?_⟩
  · intro hp a hak hm
    obtain ⟨s1, hpc, ha1, hw1, hreg⟩ :
        ∃ s1, phoneCheck r s = (s1, false) ∧ s1.addresses = s.addresses ∧
          s1.websites = s.websites ∧
          (∀ k, phoneKey r = some k → keyMem k s1.phones = true) := by
      cases hpk : phoneKey r with
      | none =>
        exact ⟨s, phoneCheck_none hpk, rfl, rfl, fun k hk => by cases hk⟩
      | some p =>
        refine ⟨{ s with phones := (p, r.place_id) :: s.phones },
          phoneCheck_fresh hpk (hp p hpk), rfl, rfl, fun k hk => ?_⟩
        injection hk with hk
        subst hk
        simp [keyMem_cons]
    have hm1 : keyMem a s1.addresses = true := by rw [ha1]; exact hm
    have hstep : dedupStep na s r = (s1, true) := by
      unfold dedupStep
      rw [hpc, addrCheck_dupe hak hm1, domainCheck_pass r rfl]
    rw [hstep]
    exact ⟨rfl, ha1, hw1, hreg⟩
  · intro hp ha d hdk hm
    obtain ⟨s1, hpc, ha1, hw1, hreg⟩ :
        ∃ s1, phoneCheck r s = (s1, false) ∧ s1.addresses = s.addresses ∧
          s1.websites = s.websites ∧
          (∀ k, phoneKey r = some k → keyMem k s1.phones = true) := by
      cases hpk : phoneKey r with
      | none =>
        exact ⟨s, phoneCheck_none hpk, rfl, rfl, fun k hk => by cases hk⟩
      | some p =>
        refine ⟨{ s with phones := (p, r.place_id) :: s.phones },
          phoneCheck_fresh hpk (hp p hpk), rfl, rfl, fun k hk => ?_⟩
        injection hk with hk
        subst hk
        simp [keyMem_cons]
    obtain ⟨s2, hac, hw2, hp2, hreg2⟩ :
        ∃ s2, addrCheck na r (phoneCheck r s) = (s2, false) ∧
          s2.websites = s.websites ∧ s2.phones = s1.phones ∧
          (∀ a2, addrKey na r = some a2 → keyMem a2 s2.addresses = true) := by
      cases hak : addrKey na r with
      | none =>
        refine ⟨s1, by rw [hpc, addrCheck_none na _ hak], hw1, rfl, fun a2 hk => ?_⟩
        cases hk
      | some a2 =>
        have hm1 : keyMem a2 s1.addresses = false := by rw [ha1]; exact ha a2 hak
        refine ⟨{ s1 with addresses := (a2, r.place_id) :: s1.addresses },
          by rw [hpc, addrCheck_fresh hak hm1], hw1, rfl, fun a3 hk => ?_⟩
        injection hk with hk
        subst hk
        simp [keyMem_cons]
    have hm2 : keyMem d s2.websites = true := by rw [hw2]; exact hm
    have hstep : dedupStep na s r = (s2, true) := by
      unfold dedupStep
      rw [hac, domainCheck_dupe hdk hm2]
    rw [hstep]
    exact ⟨rfl, hw2, fun k hk => by rw [hp2]; exact hreg k hk, hreg2⟩

/-- C1 counterexample: records A (long address only), B (fresh phone and
A's address), C (B's phone).  B is dropped by the address match, yet its
phone was registered before the address table was consulted, so C is also
dropped — against the claim, which predicts survivors [A, C].  Output:
only A survives, with 2 duplicates counted. -/
theorem dedup_address_drop_still_registers_phone :
    deduplicate
      [ { name := "A", address := "aaaa bbbb cccc dddd" },
        { name := "B", phone := "4155550100", address := "aaaa bbbb cccc dddd" },
        { name := "C", phone := "4155550100" } ]
      = ([ { name := "A", address := "aaaa bbbb cccc dddd" } ], 2) := by
  decide

end DumpsterMap

namespace DumpsterMap

/-! ## Sorting lemmas -/

theorem stableSortQ_cons (x : Record) (l : List Record) :
    stableSortQ (x :: l) = insertDescQ x (stableSortQ l) := rfl

theorem insertDescQ_perm (x : Record) (l : List Record) :
    List.Perm (insertDescQ x l) (x :: l) := by
  induction l with
  | nil => exact List.Perm.refl _
  | cons y ys ih =>
    simp only [insertDescQ]
    split_ifs
    · exact (ih.cons y).trans (List.Perm.swap x y ys)
    · exact List.Perm.refl _

theorem stableSortQ_perm (l : List Record) : List.Perm (stableSortQ l) l := by
  induction l with
  | nil => exact List.Perm.refl _
  | cons x xs ih =>
    rw [stableSortQ_cons]
    exact (insertDescQ_perm x (stableSortQ xs)).trans (ih.cons x)

theorem insertDescQ_sorted (x : Record) {l : List Record} (h : SortedDescQ l) :
    SortedDescQ (insertDescQ x l) := by
  induction l with
  | nil => simp [insertDescQ, SortedDescQ]
  | cons y ys ih =>
    simp only [insertDescQ]
    obtain ⟨hy, hys⟩ := List.pairwise_cons.mp h
    split_ifs with hlt
    · refine List.Pairwise.cons ?_ (ih hys)
      intro z hz
      rcases List.mem_cons.mp ((insertDescQ_perm x ys).mem_iff.mp hz) with rfl | hz'
      · exact le_of_lt hlt
      · exact hy z hz'
    · refine List.Pairwise.cons ?_ h
      intro z hz
      rcases List.mem_cons.mp hz with rfl | hz'
      · exact not_lt.mp hlt
      · exact le_trans (hy z hz') (not_lt.mp hlt)

theorem stableSortQ_sorted (l : List Record) : SortedDescQ (stableSortQ l) := by
  induction l with
  | nil => simp [stableSortQ, SortedDescQ]
  | cons x xs ih =>
    rw [stableSortQ_cons]
    exact insertDescQ_sorted x ih

theorem scoreFilter_cons (q : Rat) (x : Record) (l : List Record) :
    scoreFilter q (x :: l) =
      if x.quality_score = q then x :: scoreFilter q l else scoreFilter q l := by
  simp only [scoreFilter, List.filter_cons]
  split_ifs <;> simp_all

theorem scoreFilter_insertDescQ (q : Rat) (x : Record) (l : List Record) :
    scoreFilter q (insertDescQ x l) =
      if x.quality_score = q then x :: scoreFilter q l else scoreFilter q l := by
  induction l with
  | nil => exact scoreFilter_cons q x []
  | cons y ys ih =>
    simp only [insertDescQ]
    by_cases hlt : x.quality_score < y.quality_score
    · rw [if_pos hlt, scoreFilter_cons, ih, scoreFilter_cons]
      split_ifs <;> first | rfl | (exfalso; linarith)
    · rw [if_neg hlt]
      exact scoreFilter_cons q x (y :: ys)

theorem stableSortQ_scoreFilter (q : Rat) (l : List Record) :
    scoreFilter q (stableSortQ l) = scoreFilter q l := by
  induction l with
  | nil => rfl
  | cons x xs ih =>
    rw [stableSortQ_cons, scoreFilter_insertDescQ, ih, scoreFilter_cons]

end DumpsterMap

namespace DumpsterMap

/-! ## C2 — final ordering, C8 — website-less records -/

/-- C2 (amended): each of the pipeline's two final sorts is non-increasing
by `quality_score` and stable with respect to the list it sorts —
equal-score records keep the order of that list (stated as: filtering any
score class commutes with the sort).  In `clean_all` the sorted list is the
dedup output, which is in input order, so ties keep input order there; but
`validate_all` sorts `validated ++ without_websites`, so ties across that
split follow the merged order, not the original input order. -/
theorem final_sorts_sorted_and_stable :
    ∀ (net : String → ProbeOutcome) (records : List Record) (q : Rat)
      (l : List Record),
      SortedDescQ (validate_all_pure net records) ∧
      scoreFilter q (validate_all_pure net records) =
        scoreFilter q (mergedValidated net records) ∧
      SortedDescQ (stableSortQ l) ∧
      scoreFilter q (stableSortQ l) = scoreFilter q l :=
  fun net records q l =>
    ⟨stableSortQ_sorted (mergedValidated net records),
     stableSortQ_scoreFilter q (mergedValidated net records),
     stableSortQ_sorted l,
     stableSortQ_scoreFilter q l⟩

/-- C2 counterexample: input `[cexNoWebsite, cexWithWebsite]`, equal
quality scores.  The website-less record comes first in the input, but the
validation phase moves every validated record ahead of every website-less
record before the stable sort, so the equal-score pair comes out in the
order `[cexValidated, cexNoWebsite]` — not the original input order. -/
theorem validate_merge_breaks_input_order_ties :
    validate_all_pure cexNet [cexNoWebsite, cexWithWebsite]
      = [cexValidated, cexNoWebsite] ∧
    cexNoWebsite.quality_score = cexWithWebsite.quality_score ∧
    validate_all_pure cexNet [cexNoWebsite, cexWithWebsite]
      ≠ [cexNoWebsite, cexValidated] := by
  decide

/-- C8: a record whose website field is absent or empty is never probed,
never annotated and never dropped by the validation phase: the very same
record value (all fields unchanged, no `_website_check` key) appears in the
final output, exactly as many times as it appeared in the input. -/
theorem no_website_record_passes_through (net : String → ProbeOutcome)
    (records : List Record) (r : Record)
    (hmem : r ∈ records) (hw : r.website = "") :
    r ∈ validate_all_pure net records ∧
    (validate_all_pure net records).count r = records.count r := by
  have hmerge : r ∈ mergedValidated net records := by
    unfold mergedValidated
    exact List.mem_append_right _ (List.mem_filter.mpr ⟨hmem, by simp [hw]⟩)
  constructor
  · exact (stableSortQ_perm (mergedValidated net records)).mem_iff.mpr hmerge
  · unfold validate_all_pure
    rw [(stableSortQ_perm (mergedValidated net records)).count_eq]
    unfold mergedValidated
    rw [List.count_append]
    have h1 : (validate_websites_pure net
        (records.filter (fun r => r.website ≠ ""))).count r = 0 := by
      rw [List.count_eq_zero]
      intro hmem2
      unfold validate_websites_pure at hmem2
      obtain ⟨x, hx, hxe⟩ := List.mem_map.mp hmem2
      have hxw : x.website ≠ "" := by simpa using (List.mem_filter.mp hx).2
      apply hxw
      have : r.website = x.website := by rw [← hxe]
      rw [← this, hw]
    have h2 : (records.filter (fun r => r.website = "")).count r = records.count r := by
      rw [List.count_filter]
      simp [hw]
    rw [h1, h2]
    omega

/-- Concrete instance of `no_website_record_passes_through`: the
website-less record `cexPhoneOnly` survives validation untouched. -/
theorem no_website_record_passes_through_witness :
    cexPhoneOnly ∈ validate_all_pure cexNet [cexPhoneOnly] ∧
    (validate_all_pure cexNet [cexPhoneOnly]).count cexPhoneOnly
      = [cexPhoneOnly].count cexPhoneOnly :=
  no_website_record_passes_through cexNet [cexPhoneOnly] cexPhoneOnly
    (by decide) (by decide)

end DumpsterMap
